import Mathlib

/-!
Verification development for the tiger-phone phone-number interpretation
engine: a shallow embedding of the registry data model, the country
detector (`detectCountryFromNumber` in `src/PhoneInput.tsx`), the length
constraint deriver (`getLengthConstraints`) and the parser
(`parsePhoneNumber`), together with theorems settling the specification
claims.  Machine strings are Lean `String`s (lists of characters); the
JavaScript functions are translated line by line from the source.
-/

namespace TigerPhone

/-- The opening curly brace character, written via its code point. -/
def braceOpen : Char := Char.ofNat 123

/-- The closing curly brace character, written via its code point. -/
def braceClose : Char := Char.ofNat 125

/-- Numeric value of a list of decimal digit characters
(the behaviour of JavaScript `parseInt` on a digit run). -/
def digitsToNat (ds : List Char) : Nat :=
  ds.foldl (fun n c => n * 10 + (c.toNat - 48)) 0

/-- JavaScript `String.prototype.split` with a one-character separator,
on character lists (structural recursion, so it evaluates in the kernel).
Splitting the empty list yields `[[]]`, as `"".split(sep)` yields `[""]`. -/
def splitOnChar (sep : Char) : List Char → List (List Char)
  | [] => [[]]
  | c :: cs =>
    if c == sep then [] :: splitOnChar sep cs
    else
      match splitOnChar sep cs with
      | [] => [[c]]
      | h :: t => (c :: h) :: t

/-- Country record, after `ICountry` in `src/PhoneInput.tsx`
(`code`, `name`, `nameEn`, `dialCode`, `flag`, `prefixes`) extended with the
`phonePattern` field used by `parsePhoneNumber` in the parser module. -/
structure ICountry where
  code : String
  name : String
  nameEn : String
  dialCode : String
  flag : String
  prefixes : List String
  phonePattern : String
deriving DecidableEq

/-- One element of a validation pattern in the registry's pattern
sublanguage: a literal digit character, the class `\d`, an alternation
group of literal digit strings, or a counted repetition of `\d`. -/
inductive RElem where
  | lit (c : Char)
  | cls
  | grp (alts : List (List Char))
  | rep (n : Nat)
deriving DecidableEq

/-- A parsed validation pattern: optional `^` anchor, a sequence of
elements, optional `$` anchor. -/
structure RPattern where
  anchorStart : Bool
  elems : List RElem
  anchorEnd : Bool
deriving DecidableEq

/-- Fuel that bounds the number of steps `reMatch` can take on a given
element list: one step per element plus one per group alternative. -/
def fuelFor (es : List RElem) : Nat :=
  es.foldl
    (fun n e =>
      n + 1 +
        (match e with
         | RElem.grp alts => alts.length
         | _ => 0))
    1

/-- Matcher for the pattern sublanguage.  With `exact = true` the element
list must consume the whole character list (a full match); with
`exact = false` it may match a proper prefix.  The fuel argument makes the
recursion structural; `fuelFor` always provides enough. -/
def reMatch (exact : Bool) : Nat → List RElem → List Char → Bool
  | 0, _, _ => false
  | _ + 1, [], s => if exact then s.isEmpty else true
  | _ + 1, RElem.lit _ :: _, [] => false
  | f + 1, RElem.lit c :: es, d :: ds => c == d && reMatch exact f es ds
  | _ + 1, RElem.cls :: _, [] => false
  | f + 1, RElem.cls :: es, d :: ds => d.isDigit && reMatch exact f es ds
  | f + 1, RElem.rep n :: es, s =>
      decide (n ≤ s.length) && (s.take n).all Char.isDigit &&
        reMatch exact f es (s.drop n)
  | _ + 1, RElem.grp [] :: _, _ => false
  | f + 1, RElem.grp (a :: as) :: es, s =>
      (a.isPrefixOf s && reMatch exact f es (s.drop a.length)) ||
        reMatch exact f (RElem.grp as :: es) s

/-- Full match of an element list against a whole character list. -/
def fullMatchChars (es : List RElem) (s : List Char) : Bool :=
  reMatch true (fuelFor es) es s

/-- Parser for the pattern sublanguage body: consumes characters after the
optional `^` anchor and returns the element list together with whether the
pattern ends in a `$` anchor.  Fuel-based structural recursion; the fuel is
initialised to more than the character count, so it never runs out. -/
def parseElems : Nat → List Char → Option (List RElem × Bool)
  | 0, _ => none
  | _ + 1, [] => some ([], false)
  | f + 1, ch :: rest =>
    if ch == '$' && rest.isEmpty then some ([], true)
    else if ch.isDigit then
      (parseElems f rest).map (fun p => (RElem.lit ch :: p.1, p.2))
    else if ch == '\\' then
      match rest with
      | 'd' :: r2 =>
        match r2 with
        | [] => some ([RElem.cls], false)
        | b :: r3 =>
          if b == braceOpen then
            let ds := r3.takeWhile Char.isDigit
            if ds.isEmpty then none
            else
              match r3.drop ds.length with
              | [] => none
              | bc :: r5 =>
                if bc == braceClose then
                  (parseElems f r5).map
                    (fun p => (RElem.rep (digitsToNat ds) :: p.1, p.2))
                else none
          else
            (parseElems f (b :: r3)).map (fun p => (RElem.cls :: p.1, p.2))
      | _ => none
    else if ch == '(' then
      let body := rest.takeWhile (fun c => c.isDigit || c == '|')
      if body.isEmpty then none
      else
        match rest.drop body.length with
        | [] => none
        | rp :: r3 =>
          if rp == ')' then
            (parseElems f r3).map
              (fun p => (RElem.grp (splitOnChar '|' body) :: p.1, p.2))
          else none
    else none

/-- Parse a registry validation-pattern string into the sublanguage AST:
optional leading `^`, then the element body, optional trailing `$`. -/
def parsePattern (s : String) : Option RPattern :=
  let cs := s.toList
  let startAnchored := cs.head? == some '^'
  let cs1 := if startAnchored then cs.tail else cs
  (parseElems (cs1.length + 1) cs1).map
    (fun p => { anchorStart := startAnchored, elems := p.1, anchorEnd := p.2 })

/-- Search-style matching of a parsed pattern against a string, the
behaviour of JavaScript `RegExp.prototype.test`: the match may start at any
position unless the pattern is `^`-anchored, and may end before the end of
the string unless it is `$`-anchored. -/
def testR (p : RPattern) (s : List Char) : Bool :=
  if p.anchorStart then reMatch p.anchorEnd (fuelFor p.elems) p.elems s
  else (s.tails).any (fun t => reMatch p.anchorEnd (fuelFor p.elems) p.elems t)

/-- Modelled from the spec: JavaScript `new RegExp(pattern).test(s)` as used
by `isValid` in `parsePhoneNumber`.  The regular-expression engine itself is
not part of the repository; the spec (§3, glossary) restricts registry
validation patterns to anchored leading-digit alternatives plus repeated
digit counts, which is exactly the sublanguage handled by `parsePattern`.
Patterns outside the sublanguage are treated as matching nothing. -/
def regexTest (pattern : String) (s : String) : Bool :=
  match parsePattern pattern with
  | some p => testR p s.toList
  | none => false

/-- ASCII lowercasing of one character, the behaviour of JavaScript
`toLowerCase` on the ASCII letters appearing in ISO country codes. -/
def lowerChar (c : Char) : Char :=
  match c with
  | 'A' => 'a' | 'B' => 'b' | 'C' => 'c' | 'D' => 'd' | 'E' => 'e'
  | 'F' => 'f' | 'G' => 'g' | 'H' => 'h' | 'I' => 'i' | 'J' => 'j'
  | 'K' => 'k' | 'L' => 'l' | 'M' => 'm' | 'N' => 'n' | 'O' => 'o'
  | 'P' => 'p' | 'Q' => 'q' | 'R' => 'r' | 'S' => 's' | 'T' => 't'
  | 'U' => 'u' | 'V' => 'v' | 'W' => 'w' | 'X' => 'x' | 'Y' => 'y'
  | 'Z' => 'z' | other => other

/-- ASCII uppercasing of one character, the behaviour of JavaScript
`toUpperCase` on the ASCII letters appearing in ISO country codes. -/
def upperChar (c : Char) : Char :=
  match c with
  | 'a' => 'A' | 'b' => 'B' | 'c' => 'C' | 'd' => 'D' | 'e' => 'E'
  | 'f' => 'F' | 'g' => 'G' | 'h' => 'H' | 'i' => 'I' | 'j' => 'J'
  | 'k' => 'K' | 'l' => 'L' | 'm' => 'M' | 'n' => 'N' | 'o' => 'O'
  | 'p' => 'P' | 'q' => 'Q' | 'r' => 'R' | 's' => 'S' | 't' => 'T'
  | 'u' => 'U' | 'v' => 'V' | 'w' => 'W' | 'x' => 'X' | 'y' => 'Y'
  | 'z' => 'Z' | other => other

/-- Test for an ASCII uppercase letter, spelled out over the 26 letters of
ISO country codes. -/
def isUpperB (c : Char) : Bool :=
  c == 'A' || c == 'B' || c == 'C' || c == 'D' || c == 'E' || c == 'F' ||
  c == 'G' || c == 'H' || c == 'I' || c == 'J' || c == 'K' || c == 'L' ||
  c == 'M' || c == 'N' || c == 'O' || c == 'P' || c == 'Q' || c == 'R' ||
  c == 'S' || c == 'T' || c == 'U' || c == 'V' || c == 'W' || c == 'X' ||
  c == 'Y' || c == 'Z'

/-- JavaScript `s.toLowerCase()` restricted to ASCII letters. -/
def strLower (s : String) : String := String.mk (s.toList.map lowerChar)

/-- JavaScript `s.toUpperCase()` restricted to ASCII letters. -/
def strUpper (s : String) : String := String.mk (s.toList.map upperChar)

/-- JavaScript `input.replace(/[^\d+]/g, "")`: keep digits and every `+`. -/
def cleanChars (s : String) : List Char :=
  s.toList.filter (fun c => c.isDigit || c == '+')

/-- JavaScript `number.replace(/[^\d]/g, "")`: keep only digits. -/
def digitChars (s : String) : List Char :=
  s.toList.filter Char.isDigit

/-- JavaScript `dialCode.replace("+", "")`: remove the first occurrence of
`+` from a character list. -/
def removeFirstPlus : List Char → List Char
  | [] => []
  | c :: cs => if c == '+' then cs else c :: removeFirstPlus cs

/-- The digits of a country's dial code, `c.dialCode.replace("+", "")`. -/
def dialDigits (c : ICountry) : List Char :=
  removeFirstPlus c.dialCode.toList

/-- The leading-prefix extraction of `getLengthConstraints`:
`pattern.match(/^\^?\(([\d|]+)\)/)`, returning the captured group body. -/
def extractPrefixGroup (pat : String) : Option String :=
  let cs := pat.toList
  let cs1 :=
    match cs with
    | c :: r => if c == '^' then r else cs
    | [] => []
  match cs1 with
  | c :: r =>
    if c == '(' then
      let body := r.takeWhile (fun ch => ch.isDigit || ch == '|')
      if body.isEmpty then none
      else
        match r.drop body.length with
        | c2 :: _ => if c2 == ')' then some (String.mk body) else none
        | [] => none
    else none
  | [] => none

/-- The repeated-digit-count extraction of `getLengthConstraints`:
the global scan `pattern.match(/\\d\x7b(\d+)\x7d/g)` followed by
`parseInt` on each match's digit run.  Scans left to right, restarting one
character later on failure and after the closing brace on success. -/
def extractRepCountsAux : Nat → List Char → List Nat
  | 0, _ => []
  | _, [] => []
  | f + 1, c :: rest =>
    if c == '\\' then
      match rest with
      | 'd' :: r2 =>
        match r2 with
        | [] => []
        | b :: r3 =>
          if b == braceOpen then
            let ds := r3.takeWhile Char.isDigit
            if ds.isEmpty then extractRepCountsAux f rest
            else
              match r3.drop ds.length with
              | [] => []
              | bc :: r5 =>
                if bc == braceClose then
                  digitsToNat ds :: extractRepCountsAux f r5
                else extractRepCountsAux f rest
          else extractRepCountsAux f rest
      | _ => extractRepCountsAux f rest
    else extractRepCountsAux f rest

/-- All repetition counts `n` of `\d\x7bn\x7d` occurrences in a pattern. -/
def extractRepCounts (pat : String) : List Nat :=
  extractRepCountsAux (pat.length + 1) pat.toList

/-- JavaScript `Math.max(...)` over a nonempty list of naturals. -/
def listMax : List Nat → Nat
  | [] => 0
  | x :: xs => xs.foldl Nat.max x

/-- JavaScript `Math.min(...)` over a nonempty list of naturals. -/
def listMin : List Nat → Nat
  | [] => 0
  | x :: xs => xs.foldl Nat.min x

/-- `getLengthConstraints` from `parsePhoneNumber`: derive `minLength` and
`maxLength` from a validation pattern by textual extraction of the prefix
alternation group and the repeated-digit quantifiers; on failed extraction
the prefixes default to `[""]` and the digit counts to `[0]`. -/
def getLengthConstraints (pat : String) : Nat × Nat :=
  let prefixes :=
    match extractPrefixGroup pat with
    | some body => (splitOnChar '|' body.toList).map String.mk
    | none => [("")]
  let adds :=
    match extractRepCounts pat with
    | [] => [0]
    | l => l
  let mx := listMax adds
  let lengths := prefixes.map (fun p => p.length + mx)
  (listMin lengths, listMax lengths)

/-- `isValid` from `parsePhoneNumber`: the national number is non-empty,
passes `/^\d+$/`, and the validation pattern's `test` accepts it. -/
def isValidNum (c : ICountry) (n : String) : Bool :=
  if n == ("") then false
  else if n.toList.all Char.isDigit then regexTest c.phonePattern n
  else false

/-- The parsed-number value returned by `parsePhoneNumber`.  The `country`
field models the `selectedCountry` record captured by the `isValid` and
formatting closures; by construction `countryCode = country.code` and
`dialCode = country.dialCode`. -/
structure PhoneNumber where
  countryCode : String
  nationalNumber : String
  dialCode : String
  minLength : Nat
  maxLength : Nat
  error : Option String
  country : ICountry
deriving DecidableEq

/-- The `isValid` closure of a parsed number. -/
def PhoneNumber.isValid (p : PhoneNumber) : Bool :=
  isValidNum p.country p.nationalNumber

/-- The `formatInternational` closure:
`isValid() ? "+" + dialCodeDigits + nationalNumber : ""`. -/
def PhoneNumber.formatInternational (p : PhoneNumber) : String :=
  if p.isValid then ("+") ++ String.mk (dialDigits p.country) ++ p.nationalNumber
  else ("")

/-- The `formatNational` closure: `isValid() ? nationalNumber : ""`. -/
def PhoneNumber.formatNational (p : PhoneNumber) : String :=
  if p.isValid then p.nationalNumber else ("")

/-- The `formatE164` closure, textually identical to `formatInternational`
in both copies of the source. -/
def PhoneNumber.formatE164 (p : PhoneNumber) : String :=
  if p.isValid then ("+") ++ String.mk (dialDigits p.country) ++ p.nationalNumber
  else ("")

/-- Default-country resolution in `parsePhoneNumber`:
`countries.find((c) => c.code.toUpperCase() === defaultCountry.toUpperCase())
|| countries[0]`. -/
def findDefaultCountry (reg : List ICountry) (defaultCountry : String) :
    Option ICountry :=
  match reg.find? (fun c => strUpper c.code == strUpper defaultCountry) with
  | some c => some c
  | none => reg.head?

/-- Country resolution in `parsePhoneNumber`: default-country lookup, then,
when the cleaned input starts with `+`, the dial-code detection scan
`countries.find((c) => cleanNumber.startsWith(c.dialCode.replace("+", "")))`
overrides it on success.  Note that the scan compares against the cleaned
input with its `+` retained. -/
def resolveCountry (reg : List ICountry) (clean : List Char)
    (defaultCountry : String) : Option ICountry :=
  match clean with
  | '+' :: _ =>
    (match reg.find? (fun c => (dialDigits c).isPrefixOf clean) with
     | some c => some c
     | none => findDefaultCountry reg defaultCountry)
  | _ => findDefaultCountry reg defaultCountry

/-- National-number extraction in `parsePhoneNumber`: strip the resolved
dial code's digits if they prefix the cleaned input, otherwise strip a
lone leading `+`, otherwise keep the cleaned input. -/
def nationalOf (c : ICountry) (clean : List Char) : List Char :=
  if (dialDigits c).isPrefixOf clean then clean.drop (dialDigits c).length
  else
    match clean with
    | '+' :: rest => rest
    | _ => clean

/-- The error message template of `parsePhoneNumber`. -/
def errorMessageFor (c : ICountry) (minL maxL : Nat) : String :=
  ("Invalid phone number for ") ++ c.nameEn ++ (". Expected ") ++
    toString minL ++ ("-") ++ toString maxL ++
    (" digits, matching pattern: ") ++ c.phonePattern

/-- Construction of the returned `PhoneNumber` object for a resolved
country and cleaned input. -/
def mkParsed (c : ICountry) (clean : List Char) : PhoneNumber :=
  { countryCode := c.code
    nationalNumber := String.mk (nationalOf c clean)
    dialCode := c.dialCode
    minLength := (getLengthConstraints c.phonePattern).1
    maxLength := (getLengthConstraints c.phonePattern).2
    error :=
      if isValidNum c (String.mk (nationalOf c clean)) then none
      else
        some (errorMessageFor c (getLengthConstraints c.phonePattern).1
          (getLengthConstraints c.phonePattern).2)
    country := c }

/-- `parsePhoneNumber(input, defaultCountry)` over an explicit registry:
reject empty input, clean, resolve the country, and build the parsed
value.  `null` is modelled as `none`. -/
def parsePhoneNumber (reg : List ICountry) (input : String)
    (defaultCountry : String) : Option PhoneNumber :=
  if input == ("") then none
  else
    match resolveCountry reg (cleanChars input) defaultCountry with
    | none => none
    | some c => some (mkParsed c (cleanChars input))

/-- The primary for-loop of `detectCountryFromNumber`: first record whose
dial-code digits prefix the digit string. -/
def detectLoop1 (digits : List Char) : List ICountry → Option ICountry
  | [] => none
  | c :: rest =>
    if (dialDigits c).isPrefixOf digits then some c else detectLoop1 digits rest

/-- The secondary pass predicate of `detectCountryFromNumber`:
`country.prefixes.indexOf(prefix2) !== -1 ||
(prefix3 && country.prefixes.indexOf(prefix3) !== -1)`. -/
def prefixHit (c : ICountry) (p2 : String) (p3 : Option String) : Bool :=
  c.prefixes.contains p2 ||
    (match p3 with
     | some q => c.prefixes.contains q
     | none => false)

/-- The secondary for-loop of `detectCountryFromNumber`. -/
def detectLoop2 (p2 : String) (p3 : Option String) :
    List ICountry → Option ICountry
  | [] => none
  | c :: rest =>
    if prefixHit c p2 p3 then some c else detectLoop2 p2 p3 rest

/-- `detectCountryFromNumber` from `src/PhoneInput.tsx`: strip non-digits,
scan for a dial-code prefix match, then (with at least two digits) scan the
prefix-hint sets with the first two and first three digits. -/
def detectCountryFromNumber (reg : List ICountry) (number : String) :
    Option ICountry :=
  match detectLoop1 (digitChars number) reg with
  | some c => some c
  | none =>
    if 2 ≤ (digitChars number).length then
      detectLoop2 (String.mk ((digitChars number).take 2))
        (if 3 ≤ (digitChars number).length then
          some (String.mk ((digitChars number).take 3))
         else none)
        reg
    else none

/-- The detector algorithm as the specification words it: the first record
in registry order whose dial-code digits prefix the digit string; only if
that finds nothing and the digit string has at least two digits, the first
record in registry order whose prefix-hint set contains the first two or
first three digits; otherwise none. -/
def detectCountrySpec (reg : List ICountry) (number : String) :
    Option ICountry :=
  match reg.find? (fun c => (dialDigits c).isPrefixOf (digitChars number)) with
  | some c => some c
  | none =>
    if 2 ≤ (digitChars number).length then
      reg.find? (fun c =>
        c.prefixes.contains (String.mk ((digitChars number).take 2)) ||
          (decide (3 ≤ (digitChars number).length) &&
            c.prefixes.contains (String.mk ((digitChars number).take 3))))
    else none

/-- Default-country resolution inside the `PhoneInput` component effects
(`src/PhoneInput.tsx` lines 187-194):
`countries.find((c) => c.code === defaultCountryCode.toLowerCase()) ||
countries[0]` — a case-sensitive comparison against the lowercased hint. -/
def componentDefaultResolve (reg : List ICountry) (dcc : String) :
    Option ICountry :=
  match reg.find? (fun c => c.code == strLower dcc) with
  | some c => some c
  | none => reg.head?

/-- Modelled from the spec: the Egypt record of the registry
(`src/data/countries.ts` is not under `src/`).  ISO code, dial code and
prefix hints follow spec §3/§8 and the code comments in the parser module
("10|11|12|15" and a trailing repeated digit count for Egypt); the
validation pattern is anchored as the spec's registry invariant requires. -/
def egypt : ICountry :=
  { code := ("EG")
    name := ("Egypt")
    nameEn := ("Egypt")
    dialCode := ("+20")
    flag := ("eg")
    prefixes := [("10"), ("11"), ("12"), ("15")]
    phonePattern := ("^(10|11|12|15)\\d\x7b8\x7d$") }

/-- Modelled from the spec: the Saudi Arabia record (spec §6 example
`+966501234567`). -/
def saudiArabia : ICountry :=
  { code := ("SA")
    name := ("Saudi Arabia")
    nameEn := ("Saudi Arabia")
    dialCode := ("+966")
    flag := ("sa")
    prefixes := [("50"), ("53"), ("55")]
    phonePattern := ("^(50|53|55)\\d\x7b7\x7d$") }

/-- Modelled from the spec: a United States record; spec §3 notes that the
`+1` dial code is shared by several records. -/
def unitedStates : ICountry :=
  { code := ("US")
    name := ("United States")
    nameEn := ("United States")
    dialCode := ("+1")
    flag := ("us")
    prefixes := [("20"), ("21")]
    phonePattern := ("^\\d\x7b10\x7d$") }

/-- Modelled from the spec: a Canada record sharing the `+1` dial code. -/
def canada : ICountry :=
  { code := ("CA")
    name := ("Canada")
    nameEn := ("Canada")
    dialCode := ("+1")
    flag := ("ca")
    prefixes := [("60"), ("41")]
    phonePattern := ("^\\d\x7b10\x7d$") }

/-- Modelled from the spec: the registry, an ordered immutable list of
country records loaded once (spec §3/§4.1); Egypt first, matching the
library's `"EG"` defaults. -/
def tigerCountries : List ICountry :=
  [egypt, saudiArabia, unitedStates, canada]

/-- A parse of a valid Egyptian national number, used to instantiate the
hypotheses of several theorems; `parsePhoneNumber tigerCountries
"1014348488" "EG"` evaluates to exactly this value. -/
def egParsedValid : PhoneNumber :=
  { countryCode := ("EG")
    nationalNumber := ("1014348488")
    dialCode := ("+20")
    minLength := 10
    maxLength := 10
    error := none
    country := egypt }

/-- The abstract syntax of Egypt's validation pattern, as produced by
`parsePattern` on `egypt.phonePattern`. -/
def egPatternAst : RPattern :=
  { anchorStart := true
    elems := [RElem.grp [['1', '0'], ['1', '1'], ['1', '2'], ['1', '5']],
              RElem.rep 8]
    anchorEnd := true }

theorem lowerChar_not_upper (a : Char) : isUpperB (lowerChar a) = false := by
  by_cases h : isUpperB a = true
  · simp only [isUpperB, Bool.or_eq_true, beq_iff_eq] at h
    obtain ((((((((((((((((((((((((rfl | rfl) | rfl) | rfl) | rfl) | rfl) | rfl) | rfl) | rfl) | rfl) | rfl) | rfl) | rfl) | rfl) | rfl) | rfl) | rfl) | rfl) | rfl) | rfl) | rfl) | rfl) | rfl) | rfl) | rfl) | rfl := h <;> decide
  · have hla : lowerChar a = a := by
      simp only [isUpperB, Bool.or_eq_true, beq_iff_eq, not_or] at h
      unfold lowerChar
      split <;> simp_all
    rw [hla]
    exact Bool.eq_false_iff.mpr h

theorem detectLoop1_eq_find (digits : List Char) (reg : List ICountry) :
    detectLoop1 digits reg =
      List.find? (fun c => (dialDigits c).isPrefixOf digits) reg := by
  induction reg with
  | nil => rfl
  | cons c rest ih =>
    simp only [detectLoop1, List.find?]
    by_cases h : ((dialDigits c).isPrefixOf digits) = true
    · simp [h]
    · simp [h, ih]

theorem detectLoop2_eq_find (p2 : String) (p3 : Option String)
    (reg : List ICountry) :
    detectLoop2 p2 p3 reg = List.find? (fun c => prefixHit c p2 p3) reg := by
  induction reg with
  | nil => rfl
  | cons c rest ih =>
    simp only [detectLoop2, List.find?]
    by_cases h : prefixHit c p2 p3 = true
    · simp [h]
    · simp [h, ih]

theorem findDefaultCountry_isSome (reg : List ICountry) (d : String)
    (h : reg ≠ []) : (findDefaultCountry reg d).isSome = true := by
  unfold findDefaultCountry
  cases hf : reg.find? (fun c => strUpper c.code == strUpper d) with
  | some c => rfl
  | none =>
    cases reg with
    | nil => exact absurd rfl h
    | cons c rest => rfl

theorem resolveCountry_isSome (reg : List ICountry) (clean : List Char)
    (d : String) (h : reg ≠ []) : (resolveCountry reg clean d).isSome = true := by
  unfold resolveCountry
  split
  · split
    · rfl
    · exact findDefaultCountry_isSome reg d h
  · exact findDefaultCountry_isSome reg d h

theorem resolveCountry_nil (clean : List Char) (d : String) :
    resolveCountry [] clean d = none := by
  unfold resolveCountry findDefaultCountry
  simp only [List.find?]
  split <;> rfl

/-- Claim C3 (counterexample): the pattern `"abc"` has no recognizable
alternation or quantifier structure, and the constraint derivation returns
`(0, 0)` on it, not the `(7, 15)` the claim states. -/
theorem getLengthConstraints_no_structure_not_7_15 :
    extractPrefixGroup ("abc") = none ∧ extractRepCounts ("abc") = [] ∧
    getLengthConstraints ("abc") = (0, 0) ∧
    getLengthConstraints ("abc") ≠ (7, 15) := by
  refine ⟨rfl, rfl, rfl, ?_⟩
  decide

/-- Claim C3 (amended): for every validation pattern with no recognizable
alternation-prefix or quantifier structure (both textual extractions fail),
the constraint derivation returns `minLength = 0` and `maxLength = 0` — the
prefix list falls back to `[""]` and the digit counts to `[0]` — and, being
a total function, it never raises. -/
theorem getLengthConstraints_fallback (pat : String)
    (h1 : extractPrefixGroup pat = none) (h2 : extractRepCounts pat = []) :
    getLengthConstraints pat = (0, 0) := by
  simp [getLengthConstraints, h1, h2, listMax, listMin]

theorem getLengthConstraints_fallback_witness :
    extractPrefixGroup ("abc") = none ∧ extractRepCounts ("abc") = [] ∧
    getLengthConstraints ("abc") = (0, 0) :=
  ⟨rfl, rfl, getLengthConstraints_fallback ("abc") rfl rfl⟩

/-- Claim C4: the detector equals its specification — the primary pass
returns the first record in registry order whose dial-code digits prefix
the digit string; the secondary prefix-hint pass runs only when the primary
found nothing and at least two digits are present, matching the first
record whose prefix-hint set contains the first two or first three digits;
otherwise the result is none. -/
theorem detectCountryFromNumber_eq_spec (reg : List ICountry)
    (number : String) :
    detectCountryFromNumber reg number = detectCountrySpec reg number := by
  by_cases h3 : 3 ≤ (digitChars number).length <;>
    simp [detectCountryFromNumber, detectCountrySpec, detectLoop1_eq_find,
      detectLoop2_eq_find, prefixHit, h3]

/-- Claim C5: for every parsed number, `formatInternational` and
`formatE164` return the same string; when the number is valid that string
is `+` followed by the resolved country's dial-code digits followed by the
national number with no separators, and `formatNational` returns the
national number alone. -/
theorem format_functions_agree (p : PhoneNumber) :
    p.formatInternational = p.formatE164 ∧
    (p.isValid = true →
      p.formatInternational =
        ("+") ++ String.mk (dialDigits p.country) ++ p.nationalNumber ∧
      p.formatNational = p.nationalNumber) := by
  refine ⟨rfl, fun h => ⟨?_, ?_⟩⟩ <;>
    simp [PhoneNumber.formatInternational, PhoneNumber.formatNational, h]

theorem format_functions_agree_witness :
    egParsedValid.isValid = true ∧
    (egParsedValid.formatInternational =
      ("+") ++ String.mk (dialDigits egParsedValid.country) ++
        egParsedValid.nationalNumber ∧
     egParsedValid.formatNational = egParsedValid.nationalNumber) :=
  ⟨by decide, (format_functions_agree egParsedValid).2 (by decide)⟩

/-- Claim C9: `parsePhoneNumber` and the detector are total functions (they
are defined by structural recursion and return an optional value on every
input); the parser returns `none` exactly for empty input or an empty
registry, and the detector returns `none` or a member of the registry. -/
theorem parse_detect_total (reg : List ICountry)
    (input defaultCountry number : String) :
    ((parsePhoneNumber reg input defaultCountry).isNone = true ↔
      (input = ("") ∨ reg = [])) ∧
    (detectCountryFromNumber reg number = none ∨
      ∃ c ∈ reg, detectCountryFromNumber reg number = some c) := by
  constructor
  · constructor
    · intro h
      unfold parsePhoneNumber at h
      by_cases hi : input = ("")
      · exact Or.inl hi
      · right
        rw [if_neg (by simp [hi])] at h
        cases hr : resolveCountry reg (cleanChars input) defaultCountry with
        | none =>
          by_contra hne
          have := resolveCountry_isSome reg (cleanChars input) defaultCountry hne
          rw [hr] at this
          exact absurd this (by simp)
        | some c =>
          rw [hr] at h
          exact absurd h (by simp)
    · intro h
      cases h with
      | inl h =>
        subst h
        unfold parsePhoneNumber
        simp
      | inr h =>
        subst h
        unfold parsePhoneNumber
        rw [resolveCountry_nil]
        split <;> rfl
  · cases hd : detectCountryFromNumber reg number with
    | none => exact Or.inl rfl
    | some c =>
      refine Or.inr ⟨c, ?_, rfl⟩
      unfold detectCountryFromNumber at hd
      rw [detectLoop1_eq_find] at hd
      cases hf :
          List.find? (fun c => (dialDigits c).isPrefixOf (digitChars number))
            reg with
      | some c' =>
        rw [hf] at hd
        simp only [Option.some.injEq] at hd
        subst hd
        exact List.mem_of_find?_eq_some hf
      | none =>
        rw [hf] at hd
        simp only at hd
        split at hd
        · rw [detectLoop2_eq_find] at hd
          exact List.mem_of_find?_eq_some hd
        · exact absurd hd (by simp)

theorem parse_detect_total_witness :
    ((parsePhoneNumber tigerCountries ("") ("EG")).isNone = true ↔
      (("" : String) = ("") ∨ tigerCountries = [])) ∧
    (detectCountryFromNumber tigerCountries ("20123") = none ∨
      ∃ c ∈ tigerCountries,
        detectCountryFromNumber tigerCountries ("20123") = some c) :=
  parse_detect_total tigerCountries ("") ("EG") ("20123")

/-- Claim C10: for every parsed number returned by `parsePhoneNumber`, the
error field is empty exactly when `isValid()` is true — a valid result
never carries an error message and an invalid one always does. -/
theorem error_iff_invalid (reg : List ICountry) (input defaultCountry : String)
    (p : PhoneNumber) (h : parsePhoneNumber reg input defaultCountry = some p) :
    p.error = none ↔ p.isValid = true := by
  unfold parsePhoneNumber at h
  by_cases hi : (input == ("")) = true
  · rw [if_pos hi] at h
    exact absurd h (by simp)
  · rw [if_neg hi] at h
    cases hr : resolveCountry reg (cleanChars input) defaultCountry with
    | none =>
      rw [hr] at h
      exact absurd h (by simp)
    | some c =>
      rw [hr] at h
      simp only [Option.some.injEq] at h
      subst h
      by_cases v : isValidNum c (String.mk (nationalOf c (cleanChars input))) = true
      · simp [mkParsed, PhoneNumber.isValid, v]
      · simp [mkParsed, PhoneNumber.isValid, v]

theorem error_iff_invalid_witness :
    egParsedValid.error = none ↔ egParsedValid.isValid = true :=
  error_iff_invalid tigerCountries ("1014348488") ("EG") egParsedValid
    (by decide)

/-- Claim C1 (code evaluated at the failing input): with the default
country `"EG"`, parsing `"+201014348488"` leaves the dial-code digits in
the national number — the cleaned input keeps its `+`, so the
`startsWith(dialCodeDigits)` strip never fires and only the `+` is removed
— while parsing `"01014348488"` keeps the bare input.  The two parses agree
on `dialCode` and on validity but their national numbers differ, against
the round-trip the claim states. -/
theorem parse_plus_input_keeps_dial_code :
    (parsePhoneNumber tigerCountries ("+201014348488") ("EG")).map
        PhoneNumber.nationalNumber = some ("201014348488") ∧
    (parsePhoneNumber tigerCountries ("01014348488") ("EG")).map
        PhoneNumber.nationalNumber = some ("01014348488") ∧
    (parsePhoneNumber tigerCountries ("+201014348488") ("EG")).map
        PhoneNumber.dialCode =
      (parsePhoneNumber tigerCountries ("01014348488") ("EG")).map
        PhoneNumber.dialCode ∧
    (parsePhoneNumber tigerCountries ("+201014348488") ("EG")).map
        PhoneNumber.isValid =
      (parsePhoneNumber tigerCountries ("01014348488") ("EG")).map
        PhoneNumber.isValid ∧
    (parsePhoneNumber tigerCountries ("+201014348488") ("EG")).map
        PhoneNumber.nationalNumber ≠
      (parsePhoneNumber tigerCountries ("01014348488") ("EG")).map
        PhoneNumber.nationalNumber := by
  decide

/-- Claim C2 (counterexample): with the default-country hint `"ZZ"`, which
matches no registry record, and an input with no detectable dial code,
`parsePhoneNumber` does not return `none`: it returns a parsed number for
the first registry record. -/
theorem parse_unknown_default_not_none :
    tigerCountries.find? (fun c => strUpper c.code == strUpper ("ZZ")) =
      none ∧
    (parsePhoneNumber tigerCountries ("0101") ("ZZ")).map
        PhoneNumber.countryCode = some ("EG") ∧
    parsePhoneNumber tigerCountries ("0101") ("ZZ") ≠ none := by
  decide

/-- Claim C2 (amended): for every nonempty input with no leading `+` after
cleaning and every defaultCountry matching no registry record,
`parsePhoneNumber` substitutes the first registry record (`countries[0]`)
rather than returning `none`; the result is the parsed number built from
the head of the registry (and so `none` only for an empty registry). -/
theorem parse_unknown_default_falls_back (reg : List ICountry)
    (input d : String) (h2 : input ≠ (""))
    (h3 : (cleanChars input).head? ≠ some '+')
    (h4 : reg.find? (fun c => strUpper c.code == strUpper d) = none) :
    parsePhoneNumber reg input d =
      (reg.head?).map (fun c0 => mkParsed c0 (cleanChars input)) := by
  have hres : resolveCountry reg (cleanChars input) d = reg.head? := by
    unfold resolveCountry
    split
    · rename_i heq
      exact absurd (by rw [heq]; rfl) h3
    · unfold findDefaultCountry
      rw [h4]
  unfold parsePhoneNumber
  rw [if_neg (by simp [h2]), hres]
  cases hh : reg.head? with
  | none => rfl
  | some c0 => rfl

theorem parse_unknown_default_falls_back_witness :
    parsePhoneNumber tigerCountries ("0101") ("ZZ") =
      (tigerCountries.head?).map (fun c0 => mkParsed c0 (cleanChars ("0101"))) :=
  parse_unknown_default_falls_back tigerCountries ("0101") ("ZZ")
    (by decide) (by decide) (by decide)

/-- Claim C6: for every country record whose validation pattern parses to
an anchored pattern (the registry invariant), `isValid` accepts a national
number exactly when it is non-empty, all digits, and fully matches the
pattern. -/
theorem isValid_iff_full_match (c : ICountry) (n : String) (p : RPattern)
    (hp : parsePattern c.phonePattern = some p)
    (hs : p.anchorStart = true) (he : p.anchorEnd = true) :
    isValidNum c n = true ↔
      (n ≠ ("") ∧ n.toList.all Char.isDigit = true ∧
        fullMatchChars p.elems n.toList = true) := by
  unfold isValidNum regexTest
  rw [hp]
  by_cases h0 : n = ("")
  · simp [h0]
  · by_cases hd : n.toList.all Char.isDigit = true
    · simp [h0, hd, testR, fullMatchChars, hs, he]
    · have hd' : (n.toList.all Char.isDigit) = false := Bool.eq_false_iff.mpr hd
      simp only [h0, hd', Bool.false_eq_true, if_false, iff_def]
      constructor
      · intro hfalse
        exact absurd hfalse (by simp)
      · intro hall
        exact hall.2.1.elim

theorem isValid_iff_full_match_witness :
    isValidNum egypt ("1014348488") = true ↔
      (("1014348488" : String) ≠ ("") ∧
        ("1014348488" : String).toList.all Char.isDigit = true ∧
        fullMatchChars egPatternAst.elems ("1014348488" : String).toList =
          true) :=
  isValid_iff_full_match egypt ("1014348488") egPatternAst (by decide) rfl rfl

/-- Claim C7: parsing `"501234567"` with default country `"EG"` (wrong
prefix and length for Egypt) yields an invalid result whose error message
is non-empty and names the country, the expected length bounds and the
pattern; all three formatters return the empty string, while `countryCode`
and `dialCode` remain populated. -/
theorem parse_invalid_egypt_result :
    parsePhoneNumber tigerCountries ("501234567") ("EG") = some
      { countryCode := ("EG")
        nationalNumber := ("501234567")
        dialCode := ("+20")
        minLength := 10
        maxLength := 10
        error := some ("Invalid phone number for Egypt. Expected 10-10 digits, matching pattern: ^(10|11|12|15)\\d\x7b8\x7d$")
        country := egypt } ∧
    (parsePhoneNumber tigerCountries ("501234567") ("EG")).map
        PhoneNumber.isValid = some false ∧
    (parsePhoneNumber tigerCountries ("501234567") ("EG")).map
        PhoneNumber.formatInternational = some ("") ∧
    (parsePhoneNumber tigerCountries ("501234567") ("EG")).map
        PhoneNumber.formatNational = some ("") ∧
    (parsePhoneNumber tigerCountries ("501234567") ("EG")).map
        PhoneNumber.formatE164 = some ("") ∧
    ("Invalid phone number for Egypt. Expected 10-10 digits, matching pattern: ^(10|11|12|15)\\d\x7b8\x7d$") ≠ ("") := by
  decide

theorem componentDefaultResolve_eq_head (reg : List ICountry) (d : String)
    (hcodes : ∀ c ∈ reg, c.code.toList.any isUpperB = true) :
    componentDefaultResolve reg d = reg.head? := by
  unfold componentDefaultResolve
  have hfind : reg.find? (fun c => c.code == strLower d) = none := by
    rw [List.find?_eq_none]
    intro c hc hbeq
    have heq : c.code = strLower d := by simpa using hbeq
    have hup := hcodes c hc
    rw [heq] at hup
    have hex : ∃ ch ∈ (d.toList.map lowerChar), isUpperB ch = true := by
      simpa [strLower, List.any_eq_true] using hup
    obtain ⟨ch, hmem, hch⟩ := hex
    obtain ⟨a, _, rfl⟩ := List.mem_map.mp hmem
    rw [lowerChar_not_upper a] at hch
    exact absurd hch (by simp)
  rw [hfind]

/-- Claim C8: default-country lookup resolves the same registry record
regardless of the case of the hint.  The parser's lookup uppercases both
sides, so case-variant hints resolve identically; the component's fallback
lookup compares registry codes — all-uppercase by the registry invariant —
against the lowercased hint, so it resolves the head record for every
hint, in particular the same record for all case variants. -/
theorem default_lookup_case_insensitive (reg : List ICountry)
    (d1 d2 : String) (hcase : strUpper d1 = strUpper d2)
    (hcodes : ∀ c ∈ reg, c.code.toList.any isUpperB = true) :
    findDefaultCountry reg d1 = findDefaultCountry reg d2 ∧
    componentDefaultResolve reg d1 = reg.head? ∧
    componentDefaultResolve reg d2 = reg.head? := by
  refine ⟨?_, componentDefaultResolve_eq_head reg d1 hcodes,
    componentDefaultResolve_eq_head reg d2 hcodes⟩
  unfold findDefaultCountry
  rw [show (fun c : ICountry => strUpper c.code == strUpper d1) =
      (fun c : ICountry => strUpper c.code == strUpper d2) from
    funext (fun c => by rw [hcase])]

theorem default_lookup_case_insensitive_witness :
    findDefaultCountry tigerCountries ("eg") =
      findDefaultCountry tigerCountries ("EG") ∧
    componentDefaultResolve tigerCountries ("eg") = tigerCountries.head? ∧
    componentDefaultResolve tigerCountries ("EG") = tigerCountries.head? :=
  default_lookup_case_insensitive tigerCountries ("eg") ("EG")
    (by decide) (by decide)

end TigerPhone

